import Mathlib

/-!
Shallow embedding of the query-to-recommendation pipeline of this
repository (src/query_functions.py, src/api.py, src/main.py), together with
theorems settling the frozen claims about it.

Modelling conventions:
* Query strings are Lean `String`s; the Python regex searches of
  `query_functions.py` are embedded as explicit left-to-right scanners over
  `List Char` with the same match semantics as the concrete patterns used
  by the source (documented at each definition).
* Cosine-similarity scores are abstracted as integers (`Int`): every claim
  under consideration is about ordering, counting and pairing of scores,
  never about their numeric values, so the embedding is parameterized by
  the score vector that `util.cos_sim` produces for the query against the
  catalog.  `round(_, 4)` is a monotone presentation step and is dropped.
* A catalog row's possibly-missing `Duration in mins` (a float that may be
  NaN) is an `Option Nat`: `none` is a missing/NaN duration.  Python
  truthiness of the float (`0.0` falsy, NaN truthy but incomparable) is
  reproduced explicitly in the filter.
-/

namespace SHL

/-! ## Character and string scanning utilities -/

/-- Python `\s`: space, tab, newline, carriage return, form feed, vertical tab. -/
def isSpaceChar (c : Char) : Bool :=
  c == ' ' || c == '\t' || c == '\n' || c == '\r' || c == Char.ofNat 12 || c == Char.ofNat 11

/-- Lowercase every character, as Python `str.lower()` does on ASCII text. -/
def lowerChars (cs : List Char) : List Char := cs.map Char.toLower

/-- `charsPre p l`: `p` is a leading segment of `l` (regex literal match at a position). -/
def charsPre : List Char → List Char → Bool
  | [], _ => true
  | _ :: _, [] => false
  | a :: as, b :: bs => a == b && charsPre as bs

/-- `charsSub needle hay`: `needle` occurs contiguously in `hay` (Python `in` on strings). -/
def charsSub (needle : List Char) : List Char → Bool
  | [] => needle.isEmpty
  | c :: rest => charsPre needle (c :: rest) || charsSub needle rest

/-- Numeric value of a decimal digit run, as Python `int` on the regex group. -/
def natOfDigits (ds : List Char) : Nat :=
  ds.foldl (fun n c => 10 * n + (c.toNat - 48)) 0

/-- Drop the leading run matched by `\s*`. -/
def dropSpaces (cs : List Char) : List Char := cs.dropWhile isSpaceChar

/-- The leading run matched by a greedy `(\d+)`. -/
def takeDigits (cs : List Char) : List Char := cs.takeWhile Char.isDigit

/-! ## The duration regexes of `query_functions.py`

`extract_features_from_query` uses `(\d+)\s*(?:min|minutes|mins)` and
`filter_recommendations` uses
`(?:under|less than|within|max)\s*(\d+)\s*(?:min|minutes|mins)`, both via
`re.search` on the lowercased query.  `re.search` returns the leftmost
position at which the pattern matches; the greedy `(\d+)` never benefits
from backtracking here (shrinking the digit run leaves a digit where a
space or `min` is required), and of the alternation only the prefix `min`
decides the match. -/

/-- Match `(\d+)\s*min` right at this position; the captured number on success. -/
def matchNumMinAt (cs : List Char) : Option Nat :=
  let ds := takeDigits cs
  if ds.isEmpty then none
  else if charsPre ['m', 'i', 'n'] (dropSpaces (cs.drop ds.length)) then
    some (natOfDigits ds)
  else none

/-- `re.search(r'(\d+)\s*(?:min|minutes|mins)', q)`: leftmost match, captured number. -/
def searchUnqualDuration : List Char → Option Nat
  | [] => none
  | c :: rest =>
    match matchNumMinAt (c :: rest) with
    | some n => some n
    | none => searchUnqualDuration rest

/-- The alternation `(?:under|less than|within|max)`, in the pattern's order. -/
def qualifierWords : List (List Char) :=
  [['u', 'n', 'd', 'e', 'r'],
   ['l', 'e', 's', 's', ' ', 't', 'h', 'a', 'n'],
   ['w', 'i', 't', 'h', 'i', 'n'],
   ['m', 'a', 'x']]

/-- Match `(?:under|less than|within|max)\s*(\d+)\s*min` at this position. -/
def matchQualAt (cs : List Char) : Option Nat :=
  (qualifierWords.filterMap fun w =>
    if charsPre w cs then matchNumMinAt (dropSpaces (cs.drop w.length)) else none).head?

/-- `re.search` of the qualified-duration pattern of `filter_recommendations`. -/
def searchQualDuration : List Char → Option Nat
  | [] => none
  | c :: rest =>
    match matchQualAt (c :: rest) with
    | some n => some n
    | none => searchQualDuration rest

/-! ## `extract_features_from_query` -/

/-- The skill vocabulary scanned by `extract_features_from_query`. -/
def skillWords : List String :=
  ["python", "java", "javascript", "sql", "problem solving", "communication", "teamwork"]

/-- The test-type vocabulary; the first one found wins (`break`). -/
def testTypeWords : List String :=
  ["coding", "cognitive", "personality", "communication", "aptitude"]

/-- `extract_features_from_query(query)`: pattern-matching feature extraction,
returned as the space-joined enhanced search string.  The duration term is
added only when the extracted number is truthy (`if features['duration']:`),
so a `0` duration contributes nothing. -/
def extract_features_from_query (query : String) : String :=
  let ql := lowerChars query.data
  let duration := searchUnqualDuration ql
  let skills := skillWords.filter fun s => charsSub s.data ql
  let testType := (testTypeWords.filter fun t => charsSub t.data ql).head?
  let remote := charsSub ['r', 'e', 'm', 'o', 't', 'e'] ql
  let adaptive := charsSub ['a', 'd', 'a', 'p', 't', 'i', 'v', 'e'] ql
  let searchTerms :=
    skills
      ++ (match testType with | some t => [t] | none => [])
      ++ (match duration with
          | some d => if d = 0 then [] else [toString d ++ " minutes"]
          | none => [])
      ++ (if remote then ["remote testing"] else [])
      ++ (if adaptive then ["adaptive"] else [])
  String.intercalate " " searchTerms

/-! ## Catalog records and `filter_recommendations` -/

/-- One recommendation record, as built by `find_recommendations` from a row
of `catalog_df` plus the similarity score.  `duration` models the float
column `Duration in mins` with `none` for a missing/NaN value. -/
structure Assessment where
  name : String := ""
  skills : String := ""
  testType : String := ""
  description : String := ""
  remoteTesting : String := ""
  adaptiveIRT : String := ""
  duration : Option Nat := none
  relativeURL : String := ""
  score : Int := 0
deriving DecidableEq, Repr, Inhabited

/-- Lowercase a string (`.lower()` on a record field). -/
def strLower (s : String) : String := ⟨lowerChars s.data⟩

/-- The duration clause of the loop body of `filter_recommendations`:
`if max_duration and rec['Duration in mins'] and float(rec['Duration in mins']) > max_duration`.
Python truthiness: a ceiling of `0` is falsy and deactivates the clause; a
record duration of `0.0` is falsy and is never dropped; a NaN duration is
truthy but `NaN > max` is false, so it is never dropped either (hence the
`none` case). -/
def dropByDuration (maxDuration : Option Nat) (duration : Option Nat) : Bool :=
  match maxDuration, duration with
  | some m, some d => m ≠ 0 && d ≠ 0 && decide (m < d)
  | _, _ => false

/-- The whole loop body of `filter_recommendations`: `true` iff the record
survives all three `continue` checks for the given extracted constraints. -/
def keepRec (maxDuration : Option Nat) (hasRemote hasAdaptive : Bool) (r : Assessment) : Bool :=
  !dropByDuration maxDuration r.duration
    && !(hasRemote && strLower r.remoteTesting != "yes")
    && !(hasAdaptive && strLower r.adaptiveIRT != "yes")

/-- `filter_recommendations` with its query-derived constraint triple made
explicit: the filtering loop followed by
`return filtered if filtered else recommendations[:1]`. -/
def filterCore (maxDuration : Option Nat) (hasRemote hasAdaptive : Bool)
    (recommendations : List Assessment) : List Assessment :=
  let filtered := recommendations.filter (keepRec maxDuration hasRemote hasAdaptive)
  if filtered.isEmpty then recommendations.take 1 else filtered

/-- The query-derived duration ceiling of `filter_recommendations`. -/
def extractMaxDuration (query : String) : Option Nat :=
  searchQualDuration (lowerChars query.data)

/-- `'remote' in query.lower()`. -/
def extractHasRemote (query : String) : Bool :=
  charsSub ['r', 'e', 'm', 'o', 't', 'e'] (lowerChars query.data)

/-- `'adaptive' in query.lower()`. -/
def extractHasAdaptive (query : String) : Bool :=
  charsSub ['a', 'd', 'a', 'p', 't', 'i', 'v', 'e'] (lowerChars query.data)

/-- `filter_recommendations(recommendations, query)` of `query_functions.py`. -/
def filter_recommendations (recommendations : List Assessment) (query : String) :
    List Assessment :=
  filterCore (extractMaxDuration query) (extractHasRemote query) (extractHasAdaptive query)
    recommendations

/-! ## `find_recommendations`

The retriever embeds the search text once and scans the catalog embeddings
in batches of `batch_size = 32`, keeping a running `(top_scores,
top_indices)` pair.  The embedding is parameterized by the integer score
vector `scores` (one cosine-similarity score per catalog index, in catalog
order); the output is the list of `(score, index)` pairs that the source
zips into result records. -/

/-- `torch.topk` ordering on `(score, index)` pairs: higher score first,
equal scores by ascending index (the deterministic CPU behavior). -/
def scoreIdxOrder (p q : Int × Nat) : Prop :=
  q.1 < p.1 ∨ (p.1 = q.1 ∧ p.2 ≤ q.2)

instance : DecidableRel scoreIdxOrder := fun p q =>
  inferInstanceAs (Decidable (q.1 < p.1 ∨ (p.1 = q.1 ∧ p.2 ≤ q.2)))

instance : IsTotal (Int × Nat) scoreIdxOrder :=
  ⟨by intro ⟨a, i⟩ ⟨b, j⟩; unfold scoreIdxOrder; simp only; omega⟩

instance : IsTrans (Int × Nat) scoreIdxOrder :=
  ⟨by intro ⟨a, i⟩ ⟨b, j⟩ ⟨c, l⟩; unfold scoreIdxOrder; simp only; omega⟩

/-- Python `sorted(_, reverse=True)` on `(score, index)` tuples: descending
lexicographic, so equal scores come out with the larger index first. -/
def pyPairGe (p q : Int × Nat) : Prop :=
  q.1 < p.1 ∨ (p.1 = q.1 ∧ q.2 ≤ p.2)

instance : DecidableRel pyPairGe := fun p q =>
  inferInstanceAs (Decidable (q.1 < p.1 ∨ (p.1 = q.1 ∧ q.2 ≤ p.2)))

instance : IsTotal (Int × Nat) pyPairGe :=
  ⟨by intro ⟨a, i⟩ ⟨b, j⟩; unfold pyPairGe; simp only; omega⟩

instance : IsTrans (Int × Nat) pyPairGe :=
  ⟨by intro ⟨a, i⟩ ⟨b, j⟩ ⟨c, l⟩; unfold pyPairGe; simp only; omega⟩

/-- Descending order on bare scores, for Python `sorted(top_scores, reverse=True)`. -/
def intGe (a b : Int) : Prop := b ≤ a

instance : DecidableRel intGe := fun a b => inferInstanceAs (Decidable (b ≤ a))

instance : IsTotal Int intGe := ⟨fun a b => (le_total b a).imp id id⟩

instance : IsTrans Int intGe := ⟨fun _ _ _ h1 h2 => le_trans h2 h1⟩

/-- `torch.topk(batch_scores, k=m)` over the pairs of a batch: the `m` best
`(score, local index)` pairs, sorted by descending score. -/
def topkPairs (pairs : List (Int × Nat)) (m : Nat) : List (Int × Nat) :=
  (List.insertionSort scoreIdxOrder pairs).take m

/-- The `(score, local index)` pairs of one batch of scores. -/
def enumScores (batch : List Int) : List (Int × Nat) :=
  batch.enum.map fun p => (p.2, p.1)

/-- The `if len(top_scores) > k` body of the batch loop:
`top_scores = sorted(top_scores, reverse=True)[:k]` followed by
`top_indices = [idx for _, idx in sorted(zip(top_scores, top_indices), reverse=True)][:k]`.
The zip pairs the already truncated scores with the untruncated index
list, exactly as the source does. -/
def truncStep (k : Nat) (ts : List Int) (ti : List Nat) : List Int × List Nat :=
  let ts' := (List.insertionSort intGe ts).take k
  let ti' := ((List.insertionSort pyPairGe (ts'.zip ti)).map Prod.snd).take k
  (ts', ti')

/-- One iteration of the batch loop of `find_recommendations`: per-batch
`topk` with `batch_top_k = min(k, len(batch_scores))`, extension of the
running lists (global index = local index + batch offset), then the
truncation step when the running list exceeds `k`. -/
def batchStep (k : Nat) (st : List Int × List Nat) (batch : List Int × Nat) :
    List Int × List Nat :=
  let m := min k batch.1.length
  let top := topkPairs (enumScores batch.1) m
  let ts1 := st.1 ++ top.map Prod.fst
  let ti1 := st.2 ++ top.map fun p => p.2 + batch.2
  if k < ts1.length then truncStep k ts1 ti1 else (ts1, ti1)

/-- `for i in range(0, len(corpus_embeddings), batch_size)` with
`batch_size = 32`: fold `batchStep` over the 32-element slices.  The
recursion is made structural on a fuel argument so the definition reduces
in the kernel; each iteration consumes at least one score, so fuel
`scores.length` (as passed by `find_recommendations`) is never exhausted
and the fuel-zero equation is dead code. -/
def runBatches (k : Nat) : Nat → List Int → Nat → (List Int × List Nat) → List Int × List Nat
  | _, [], _, st => st
  | 0, _ :: _, _, st => st
  | fuel + 1, c :: cs, off, st =>
    runBatches k fuel ((c :: cs).drop 32) (off + 32)
      (batchStep k st ((c :: cs).take 32, off))

/-- `find_recommendations(query, k)`, abstracted over the score vector: the
final `zip(top_scores, top_indices)` of `(score, catalog index)` pairs from
which the source builds its result records. -/
def find_recommendations (scores : List Int) (k : Nat) : List (Int × Nat) :=
  let st := runBatches k scores.length scores 0 ([], [])
  st.1.zip st.2

/-- Modelled from the spec's correctness requirement (not from the source):
the true global top-`k` of the catalog by score, ties between equal scores
broken by ascending original catalog index. -/
def specTrueTopK (scores : List Int) (k : Nat) : List (Int × Nat) :=
  (List.insertionSort scoreIdxOrder (enumScores scores)).take k

/-! ## `extract_url_from_text` and `query_handling` -/

/-- The run matched by `[^\s,]+` (greedy, must be non-empty). -/
def urlBody (cs : List Char) : List Char :=
  cs.takeWhile fun c => !(isSpaceChar c || c == ',')

/-- Match `https?://[^\s,]+` right at this position; the matched text on
success.  `s?` needs no backtracking: when the optional `s` is present the
remainder cannot also start with `://`. -/
def matchUrlAt : List Char → Option (List Char)
  | 'h' :: 't' :: 't' :: 'p' :: 's' :: ':' :: '/' :: '/' :: t =>
    if (urlBody t).isEmpty then none
    else some (['h', 't', 't', 'p', 's', ':', '/', '/'] ++ urlBody t)
  | 'h' :: 't' :: 't' :: 'p' :: ':' :: '/' :: '/' :: t =>
    if (urlBody t).isEmpty then none
    else some (['h', 't', 't', 'p', ':', '/', '/'] ++ urlBody t)
  | _ => none

/-- `re.search(r'(https?://[^\s,]+)', text)`: leftmost match. -/
def searchUrl : List Char → Option (List Char)
  | [] => none
  | c :: rest =>
    match matchUrlAt (c :: rest) with
    | some u => some u
    | none => searchUrl rest

/-- `extract_url_from_text(text)` of `query_functions.py` (case-sensitive,
on the raw text). -/
def extract_url_from_text (text : String) : Option String :=
  (searchUrl text.data).map fun l => ⟨l⟩

/-- `query_handling(query)` of `query_functions.py`, parameterized by the
read-only process state and the network:
* `scoreOf` — the composition of `model.encode` on the search text with
  `util.cos_sim` against the fixed corpus embeddings (one score per
  catalog index);
* `catalog` — the rows of `catalog_df`, in catalog order (score field unused);
* `fetch` — `extract_text_from_url`, the only network access.
URL enrichment appends the fetched text; the enhanced query is used for
retrieval when non-empty (Python string truthiness), with `k=10`; the
filter runs on the URL-augmented query text. -/
def query_handling (scoreOf : String → List Int) (catalog : List Assessment)
    (fetch : String → String) (query : String) : List Assessment :=
  let query' :=
    match extract_url_from_text query with
    | some url => query ++ " " ++ fetch url
    | none => query
  let enhanced := extract_features_from_query query'
  let searchText := if enhanced = "" then query' else enhanced
  let pairs := find_recommendations (scoreOf searchText) 10
  let recommendations :=
    pairs.map fun p => { catalog.getD p.2 default with score := p.1 }
  filter_recommendations recommendations query'

/-! ## Startup catalog loading (module top level of `query_functions.py`)

`pd.read_csv` raises `FileNotFoundError` when the artifact is missing (the
`try` re-raises it) and propagates a parse error on a malformed file; then
the corpus is embedded in batches of 32 and the per-batch tensors are
concatenated with `torch.cat`, which raises on an empty tensor list, i.e.
exactly when the catalog has zero rows.  The module never reaches its
function definitions (request-serving state) if any of these raise. -/

/-- `combine_row(row)`: the composite text blob embedded for one record.
`str()` of the possibly-NaN duration float prints `nan` when missing. -/
def combine_row (r : Assessment) : String :=
  String.intercalate " "
    [r.name,
     (match r.duration with | some d => toString d | none => "nan"),
     r.remoteTesting, r.adaptiveIRT, r.testType, r.skills, r.description]

/-- The catalog artifact as the loader sees it: absent file, unparseable
file, or a parsed table of rows. -/
inductive CatalogSource where
  | missing : CatalogSource
  | malformed : CatalogSource
  | table : List Assessment → CatalogSource
deriving DecidableEq

/-- 32-element slices, as produced by `range(0, len(corpus), BATCH_SIZE)`. -/
def chunks32 (l : List String) : List (List String) :=
  match l with
  | [] => []
  | c :: cs => ((c :: cs).take 32) :: chunks32 ((c :: cs).drop 32)
termination_by l.length
decreasing_by simp only [List.length_drop, List.length_cons]; omega

/-- `torch.cat(corpus_embeddings, dim=0)`: raises on an empty tensor list. -/
def torchCat (batches : List (List (List Int))) : Except String (List (List Int)) :=
  if batches.isEmpty then
    Except.error "torch.cat(): expected a non-empty list of Tensors"
  else Except.ok batches.flatten

/-- The module-initialization sequence of `query_functions.py`, up to the
point where the embeddings exist and requests can be served: load the
catalog, build the corpus of composite blobs, encode it in batches of 32,
concatenate.  `encode` abstracts `model.encode` on one blob. -/
def startupLoad (encode : String → List Int) (src : CatalogSource) :
    Except String (List Assessment × List (List Int)) :=
  match src with
  | CatalogSource.missing => Except.error "transformed_data1.csv not found!"
  | CatalogSource.malformed => Except.error "pandas parse error"
  | CatalogSource.table rows =>
    let corpus := rows.map combine_row
    let batches := (chunks32 corpus).map fun b => b.map encode
    match torchCat batches with
    | Except.error e => Except.error e
    | Except.ok embs => Except.ok (rows, embs)

/-! ## The two API endpoints (`src/main.py`, `src/api.py`)

Both are modelled as functions of the pipeline output (the list
`query_handling` returns for the request's query); HTTP serialization is
out of scope.  An outcome is either a successful payload or an
`HTTPException` with its status code and detail string. -/

/-- An endpoint outcome: payload, or `HTTPException(status_code, detail)`. -/
inductive ApiOutcome (α : Type) where
  | ok : α → ApiOutcome α
  | httpError : Nat → String → ApiOutcome α
deriving DecidableEq

/-- `get_recommendations` of `src/main.py`: an empty pipeline result is
returned as `{"recommendations": [], ...}` (a normal 200 payload), a
non-empty one is truncated to `request.num_results`. -/
def get_recommendations (numResults : Nat) (results : List Assessment) :
    ApiOutcome (List Assessment) :=
  if results.isEmpty then ApiOutcome.ok []
  else ApiOutcome.ok (results.take numResults)

/-- The `try` body of `recommend_assessments` of `src/api.py`: an empty
pipeline result raises `HTTPException(404, ...)`; otherwise the first 10
rows are returned. -/
def recommend_assessments_try (results : List Assessment) :
    ApiOutcome (List Assessment) :=
  if results.isEmpty then
    ApiOutcome.httpError 404 "No assessments found matching the criteria"
  else ApiOutcome.ok (results.take 10)

/-- `recommend_assessments` of `src/api.py`: the `try` body wrapped in
`except Exception as e: raise HTTPException(status_code=500, detail=str(e))`,
which also catches the endpoint's own `HTTPException(404)` and re-raises
it as a 500 (`str(e)` is modelled as the code followed by the detail; its
exact formatting is immaterial to the claims). -/
def recommend_assessments (results : List Assessment) :
    ApiOutcome (List Assessment) :=
  match recommend_assessments_try results with
  | ApiOutcome.ok r => ApiOutcome.ok r
  | ApiOutcome.httpError code msg =>
    ApiOutcome.httpError 500 (toString code ++ ": " ++ msg)

/-! ## Spec-side definitions and concrete inputs for the claims -/

/-- Modelled from the spec's words (§4.4): the duration clause of the drop
condition as the claim states it — the ceiling is set and the candidate's
duration is set and exceeds it (no positivity condition). -/
def specDurationViolation (maxDuration duration : Option Nat) : Prop :=
  match maxDuration, duration with
  | some m, some d => m < d
  | _, _ => False

instance : (m : Option Nat) → (d : Option Nat) → Decidable (specDurationViolation m d)
  | some _, some _ => inferInstanceAs (Decidable (_ < _))
  | some _, none => inferInstanceAs (Decidable False)
  | none, _ => inferInstanceAs (Decidable False)

/-- Modelled from the spec's words (§4.4): the full drop condition as the
claim states it. -/
def specDrops (maxDuration : Option Nat) (requireRemote requireAdaptive : Bool)
    (r : Assessment) : Prop :=
  specDurationViolation maxDuration r.duration
    ∨ (requireRemote = true ∧ strLower r.remoteTesting ≠ "yes")
    ∨ (requireAdaptive = true ∧ strLower r.adaptiveIRT ≠ "yes")

instance (m : Option Nat) (hr ha : Bool) (r : Assessment) :
    Decidable (specDrops m hr ha r) :=
  inferInstanceAs (Decidable (_ ∨ _ ∨ _))

/-- A candidate that supports neither remote nor adaptive testing, score 1. -/
def recA : Assessment :=
  { name := "A", remoteTesting := "No", adaptiveIRT := "No", score := 1 }

/-- A candidate that supports neither remote nor adaptive testing, score 2. -/
def recB : Assessment :=
  { name := "B", remoteTesting := "No", adaptiveIRT := "No", score := 2 }

/-- A candidate with a 30-minute duration and full remote/adaptive support. -/
def recDur30 : Assessment :=
  { name := "D", remoteTesting := "Yes", adaptiveIRT := "Yes", duration := some 30 }

/-- A 64-entry score vector spanning two batches: pairwise distinct scores,
with the global best (100) at catalog index 32, in the second batch. -/
def scoresC1 : List Int :=
  (List.range 64).map fun i => if i = 32 then 100 else 63 - (i : Int)

/-- A 33-entry score vector spanning two batches whose best score (1) sits
at the last catalog index. -/
def scoresC2 : List Int := List.replicate 32 0 ++ [1]

/-- The running-state invariant of the batch loop: both running lists hold
`min k S` entries after `S` catalog scores have been scanned. -/
def goodState (k S : Nat) (st : List Int × List Nat) : Prop :=
  st.1.length = min k S ∧ st.2.length = min k S

/-! ## Theorems for the claims -/

/-- Claim C10: for the empty candidate list and every constraint set, the
filter operation returns the empty list; the fallback clause never invents
a result, so the output is the (empty) subsequence of the input. -/
theorem C10_filter_empty_input :
    (∀ (maxD : Option Nat) (hr ha : Bool), filterCore maxD hr ha [] = [])
      ∧ (∀ query : String, filter_recommendations [] query = []) :=
  ⟨fun _ _ _ => rfl, fun _ => rfl⟩

/-- Claim C3 counterexample: with candidates `[recA, recB]` (scores 1 and 2,
neither remote) and query `"remote"`, every candidate is dropped by the
active filter, yet the fallback returns `[recA]` — the first candidate,
whose score is strictly below `recB`'s — so the returned result is not the
highest-scored candidate of the input list. -/
theorem C3_counterexample :
    [recA, recB].filter
        (keepRec (extractMaxDuration "remote") (extractHasRemote "remote")
          (extractHasAdaptive "remote")) = []
      ∧ filter_recommendations [recA, recB] "remote" = [recA]
      ∧ recA.score < recB.score := by
  refine ⟨by decide, by decide, by decide⟩

/-- Claim C3 (amended): for every non-empty candidate list and every
constraint set under which every candidate is dropped by the active
filters, `filter_recommendations` returns exactly one result, and that
result is the first candidate of the input list (`recommendations[:1]`) —
the highest-scored one only when the input is sorted by descending
score. -/
theorem C3_amended_fallback_first (maxD : Option Nat) (hr ha : Bool)
    (recs : List Assessment) (hne : recs ≠ [])
    (hall : recs.filter (keepRec maxD hr ha) = []) :
    filterCore maxD hr ha recs = recs.take 1
      ∧ (filterCore maxD hr ha recs).length = 1 := by
  unfold filterCore
  rw [hall]
  cases recs with
  | nil => exact absurd rfl hne
  | cons a l => simp

/-- Witness for C3: a concrete all-dropped input. -/
theorem C3_amended_fallback_first_witness :
    filterCore none true false [recA, recB] = [recA, recB].take 1
      ∧ (filterCore none true false [recA, recB]).length = 1 :=
  C3_amended_fallback_first none true false [recA, recB] (by decide) (by decide)

/-- Claim C4 counterexample: with the extracted constraint triple
`maxDurationMinutes = 0` (from e.g. the query `"under 0 mins"`, whose
ceiling the regex does extract) and a candidate of duration 30, the claim
says the candidate is dropped (the ceiling is set, the duration is set and
exceeds it), but the code keeps it: Python truthiness of `max_duration`
treats the set ceiling `0` as inactive. -/
theorem C4_counterexample :
    extractMaxDuration "under 0 mins" = some 0
      ∧ ¬ ((keepRec (some 0) false false recDur30 = false)
            ↔ specDrops (some 0) false false recDur30) := by
  refine ⟨by decide, by decide⟩

/-- Claim C4 (amended): a candidate is dropped exactly when the duration
ceiling is set to a positive value and the candidate's duration is set and
exceeds it (a candidate with unset duration is never dropped by a duration
ceiling), or remote is required and unsupported, or adaptive is required
and unsupported. -/
theorem C4_amended_drop_iff (maxD : Option Nat) (hr ha : Bool) (r : Assessment) :
    keepRec maxD hr ha r = false ↔
      ((∃ m, maxD = some m ∧ 0 < m ∧ ∃ d, r.duration = some d ∧ m < d)
        ∨ (hr = true ∧ strLower r.remoteTesting ≠ "yes")
        ∨ (ha = true ∧ strLower r.adaptiveIRT ≠ "yes")) := by
  have hdur : dropByDuration maxD r.duration = true ↔
      (∃ m, maxD = some m ∧ 0 < m ∧ ∃ d, r.duration = some d ∧ m < d) := by
    cases maxD with
    | none => simp [dropByDuration]
    | some m =>
      cases hd : r.duration with
      | none => simp [dropByDuration, hd]
      | some d =>
        simp only [dropByDuration, hd, Option.some.injEq, Bool.and_eq_true,
          decide_eq_true_eq, ne_eq]
        constructor
        · rintro ⟨⟨hm0, hd0⟩, hlt⟩
          exact ⟨m, rfl, by omega, d, rfl, hlt⟩
        · rintro ⟨m', hm', hpos, d', hd', hlt⟩
          cases hm'
          cases hd'
          refine ⟨⟨by omega, by omega⟩, hlt⟩
  have hb : keepRec maxD hr ha r = false ↔
      (dropByDuration maxD r.duration = true
        ∨ (hr = true ∧ strLower r.remoteTesting ≠ "yes")
        ∨ (ha = true ∧ strLower r.adaptiveIRT ≠ "yes")) := by
    unfold keepRec
    cases hdd : dropByDuration maxD r.duration <;> cases hr <;> cases ha <;>
      by_cases hrem : strLower r.remoteTesting = "yes" <;>
      by_cases hada : strLower r.adaptiveIRT = "yes" <;>
      simp [hdd, hrem, hada]
  rw [hb, hdur]

/-- If no qualifier word matches at this position, the qualified-duration
pattern does not match here. -/
lemma matchQualAt_none_of_no_pre (cs : List Char)
    (h : ∀ w ∈ qualifierWords, charsPre w cs = false) : matchQualAt cs = none := by
  have hu := h ['u', 'n', 'd', 'e', 'r'] (by simp [qualifierWords])
  have hl := h ['l', 'e', 's', 's', ' ', 't', 'h', 'a', 'n'] (by simp [qualifierWords])
  have hw := h ['w', 'i', 't', 'h', 'i', 'n'] (by simp [qualifierWords])
  have hm := h ['m', 'a', 'x'] (by simp [qualifierWords])
  unfold matchQualAt qualifierWords
  simp [hu, hl, hw, hm]

/-- A query in which no qualifier word occurs at all yields no duration
ceiling. -/
lemma searchQualDuration_eq_none (cs : List Char)
    (h : ∀ w ∈ qualifierWords, charsSub w cs = false) : searchQualDuration cs = none := by
  induction cs with
  | nil => rfl
  | cons c rest ih =>
    have hsplit : ∀ w ∈ qualifierWords,
        charsPre w (c :: rest) = false ∧ charsSub w rest = false := by
      intro w hw
      have hsub := h w hw
      simp only [charsSub, Bool.or_eq_false_iff] at hsub
      exact hsub
    simp only [searchQualDuration]
    rw [matchQualAt_none_of_no_pre _ (fun w hw => (hsplit w hw).1)]
    exact ih (fun w hw => (hsplit w hw).2)

/-- Claim C5: a duration phrase qualified by under/less than/within/max
yields a ceiling equal to the stated number (`"find a test under 30
minutes"` gives 30), while an unqualified duration phrase yields no
ceiling (`"a 30 minute test"` gives none) yet still contributes `"30
minutes"` to the enhanced search string; in general, a query containing no
qualifier word yields no ceiling. -/
theorem C5_duration_qualifier_distinction :
    extractMaxDuration "find a test under 30 minutes" = some 30
      ∧ extractMaxDuration "a 30 minute test" = none
      ∧ extract_features_from_query "a 30 minute test" = "30 minutes"
      ∧ charsSub "30 minutes".data (extract_features_from_query "a 30 minute test").data = true
      ∧ (∀ q : String,
          (∀ w ∈ qualifierWords, charsSub w (lowerChars q.data) = false) →
          extractMaxDuration q = none) :=
  ⟨by decide, by decide, by decide, by decide,
    fun _ h => searchQualDuration_eq_none _ h⟩

/-- `chunks32` of a non-empty corpus is non-empty. -/
lemma chunks32_ne_nil (c : String) (cs : List String) : chunks32 (c :: cs) ≠ [] := by
  rw [chunks32]
  simp

/-- Claim C7: startup catalog loading succeeds exactly for a present,
well-formed artifact with at least one usable row; a missing or malformed
artifact raises at once, and a zero-row catalog makes the batched
embedding list empty so `torch.cat` raises — in every failing case the
module never reaches its request-serving definitions. -/
theorem C7_startup_load (encode : String → List Int) (src : CatalogSource) :
    (∃ out, startupLoad encode src = Except.ok out) ↔
      ∃ rows, src = CatalogSource.table rows ∧ rows ≠ [] := by
  cases src with
  | missing => simp [startupLoad]
  | malformed => simp [startupLoad]
  | table rows =>
    cases rows with
    | nil => simp [startupLoad, chunks32, torchCat]
    | cons r rs =>
      have hne := chunks32_ne_nil (combine_row r) (rs.map combine_row)
      simp only [startupLoad, torchCat, List.map_cons, List.isEmpty_eq_true,
        List.map_eq_nil_iff]
      rw [if_neg hne]
      simp

/-- Claim C1 (evaluation at the failing input): on a 64-record catalog with
pairwise distinct scores whose global best sits at index 32 (the second
batch), `find_recommendations` with `k = 5` returns a scrambled
index–score pairing drawn entirely from the first batch — the truncation
step zips the already-truncated score list with the untruncated index
list — instead of the true global top-5 with ties broken by ascending
catalog index. -/
theorem C1_topk_pairing_bug :
    find_recommendations scoresC1 5 = [(100, 0), (63, 1), (62, 2), (61, 3), (60, 4)]
      ∧ specTrueTopK scoresC1 5 = [(100, 32), (63, 0), (62, 1), (61, 2), (60, 3)]
      ∧ find_recommendations scoresC1 5 ≠ specTrueTopK scoresC1 5 := by
  refine ⟨by decide, by decide, by decide⟩

lemma length_topkPairs (pairs : List (Int × Nat)) (m : Nat) :
    (topkPairs pairs m).length = min m pairs.length := by
  simp [topkPairs, List.length_insertionSort]

lemma length_enumScores (batch : List Int) : (enumScores batch).length = batch.length := by
  simp [enumScores]

/-- One batch iteration preserves the running-state length invariant. -/
lemma batchStep_good (k S : Nat) (st : List Int × List Nat) (batch : List Int × Nat)
    (h : goodState k S st) : goodState k (S + batch.1.length) (batchStep k st batch) := by
  obtain ⟨h1, h2⟩ := h
  unfold goodState
  simp only [batchStep, truncStep]
  constructor <;>
  · split <;>
      simp_all [length_topkPairs, length_enumScores, List.length_zip,
        List.length_insertionSort] <;>
      omega

/-- The batch loop keeps `min k S` scores and indices after scanning `S`
catalog entries. -/
lemma runBatches_good (k : Nat) :
    ∀ (fuel : Nat) (rem : List Int) (off : Nat) (st : List Int × List Nat) (S : Nat),
      rem.length ≤ fuel → goodState k S st →
      goodState k (S + rem.length) (runBatches k fuel rem off st) := by
  intro fuel
  induction fuel with
  | zero =>
    intro rem off st S hn hst
    have hrem : rem = [] := List.eq_nil_of_length_eq_zero (Nat.le_zero.mp hn)
    subst hrem
    simpa [runBatches] using hst
  | succ n ih =>
    intro rem off st S hn hst
    cases rem with
    | nil => simpa [runBatches] using hst
    | cons c cs =>
      have hstep := batchStep_good k S st ((c :: cs).take 32, off) hst
      have htail := ih ((c :: cs).drop 32) (off + 32)
        (batchStep k st ((c :: cs).take 32, off)) (S + ((c :: cs).take 32).length)
        (by simp only [List.length_drop, List.length_cons] at hn ⊢; omega) hstep
      simp only [runBatches]
      have harith : S + (c :: cs).length
          = S + ((c :: cs).take 32).length + ((c :: cs).drop 32).length := by
        simp only [List.length_take, List.length_drop, List.length_cons]
        omega
      rw [harith]
      exact htail

lemma sorted_take_insertionSort_int (l : List Int) (m : Nat) :
    List.Sorted intGe ((List.insertionSort intGe l).take m) :=
  List.Pairwise.sublist (List.take_sublist m _) (List.sorted_insertionSort intGe l)

lemma truncStep_fst_sorted (k : Nat) (ts : List Int) (ti : List Nat) :
    List.Sorted intGe (truncStep k ts ti).1 := by
  simp only [truncStep]
  exact sorted_take_insertionSort_int ts k

lemma topkPairs_fst_sorted (pairs : List (Int × Nat)) (m : Nat) :
    List.Sorted intGe ((topkPairs pairs m).map Prod.fst) := by
  have hs : List.Sorted scoreIdxOrder (topkPairs pairs m) :=
    List.Pairwise.sublist (List.take_sublist m _) (List.sorted_insertionSort scoreIdxOrder pairs)
  rw [List.Sorted, List.pairwise_map]
  refine hs.imp ?_
  intro p q h
  unfold scoreIdxOrder at h
  unfold intGe
  omega

/-- Whenever the requested `k` is strictly below the number of scores still
to come plus those already scanned, the final running score list is
sorted: the last executed batch either overflows `k` and is re-sorted by
the truncation step, or is the single `topk` of the only batch. -/
lemma runBatches_fst_sorted (k : Nat) :
    ∀ (fuel : Nat) (rem : List Int) (off : Nat) (st : List Int × List Nat) (S : Nat),
      rem.length ≤ fuel → rem ≠ [] →
      goodState k S st → (S = 0 → st.1 = []) →
      k < S + rem.length →
      List.Sorted intGe (runBatches k fuel rem off st).1 := by
  intro fuel
  induction fuel with
  | zero =>
    intro rem off st S hn hne _ _ _
    cases rem with
    | nil => exact absurd rfl hne
    | cons c cs => simp at hn
  | succ n ih =>
    intro rem off st S hn hne hgood hS hk
    obtain ⟨hlen, hlen2⟩ := hgood
    cases rem with
    | nil => exact absurd rfl hne
    | cons c cs =>
      simp only [runBatches]
      by_cases hrest : (c :: cs).drop 32 = []
      · have hlen32 : cs.length + 1 ≤ 32 := by
          have := congrArg List.length hrest
          simp only [List.length_drop, List.length_cons, List.length_nil] at this
          omega
        rw [hrest]
        simp only [runBatches, batchStep]
        split
        · exact truncStep_fst_sorted _ _ _
        · rename_i hnot
          have hstnil : st.1 = [] := by
            rw [List.length_append, List.length_map, length_topkPairs,
              length_enumScores, List.length_take, List.length_cons] at hnot
            apply List.eq_nil_of_length_eq_zero
            rw [hlen]
            simp only [List.length_cons] at hk
            omega
          rw [hstnil]
          simpa using topkPairs_fst_sorted (enumScores ((c :: cs).take 32)) _
      · refine ih ((c :: cs).drop 32) (off + 32)
          (batchStep k st ((c :: cs).take 32, off)) (S + ((c :: cs).take 32).length)
          (by simp only [List.length_drop, List.length_cons] at hn ⊢; omega) hrest
          (batchStep_good k S st ((c :: cs).take 32, off) ⟨hlen, hlen2⟩) ?_ ?_
        · intro h0
          exfalso
          simp only [List.length_take, List.length_cons] at h0
          omega
        · simp only [List.length_take, List.length_drop, List.length_cons] at hk ⊢
          omega

/-- A catalog that fits in a single batch comes out of the loop as one
`topk`, hence sorted, for every `k`. -/
lemma find_small_sorted (scores : List Int) (k : Nat) (hle : scores.length ≤ 32) :
    List.Sorted intGe ((runBatches k scores.length scores 0 ([], [])).1) := by
  cases scores with
  | nil => simp [runBatches]
  | cons c cs =>
    have hdrop : (c :: cs).drop 32 = [] :=
      List.drop_eq_nil_of_le (by simpa using hle)
    simp only [List.length_cons, runBatches, hdrop, batchStep]
    split
    · exact truncStep_fst_sorted _ _ _
    · simpa using topkPairs_fst_sorted (enumScores ((c :: cs).take 32)) _

lemma find_goodState (scores : List Int) (k : Nat) :
    goodState k scores.length (runBatches k scores.length scores 0 ([], [])) := by
  have h := runBatches_good k scores.length scores 0 ([], []) 0 le_rfl
    ⟨by simp, by simp⟩
  simpa using h

/-- Claim C2 counterexample: for the 33-record catalog `scoresC2` (two
batches, best score last), requesting `K = 33 = N` returns exactly 33
results but their scores are not sorted in non-increasing order (the
running lists never exceed `K`, so the per-batch sorted runs are
concatenated unsorted), and requesting `K = 34 > N` likewise returns all
records unsorted. -/
theorem C2_counterexample :
    scoresC2.length = 33
      ∧ (find_recommendations scoresC2 33).length = 33
      ∧ ¬ List.Sorted intGe ((find_recommendations scoresC2 33).map Prod.fst)
      ∧ ¬ List.Sorted intGe ((find_recommendations scoresC2 34).map Prod.fst) := by
  refine ⟨by decide, by decide, by decide, by decide⟩

/-- Claim C2 (amended): the retrieval operation always returns exactly
`min K N` results; their scores are sorted in non-increasing order
whenever `K < N` or the catalog fits in a single batch (`N ≤ 32`), but
when `K ≥ N` and the catalog spans several batches the output is the
concatenation of per-batch sorted runs, not necessarily globally
sorted. -/
theorem C2_retrieval_count_and_order (scores : List Int) (k : Nat) :
    (find_recommendations scores k).length = min k scores.length
      ∧ ((k < scores.length ∨ scores.length ≤ 32) →
          List.Sorted intGe ((find_recommendations scores k).map Prod.fst)) := by
  obtain ⟨h1, h2⟩ := find_goodState scores k
  constructor
  · simp only [find_recommendations, List.length_zip, h1, h2]
    omega
  · intro hcase
    have hmap : (find_recommendations scores k).map Prod.fst
        = (runBatches k scores.length scores 0 ([], [])).1 :=
      List.map_fst_zip _ _ (by rw [h1, h2])
    rw [hmap]
    rcases hcase with hlt | hle
    · refine runBatches_fst_sorted k scores.length scores 0 ([], []) 0 le_rfl
        ?_ ⟨by simp, by simp⟩ (fun _ => rfl) (by omega)
      intro h
      subst h
      simp at hlt
    · exact find_small_sorted scores k hle

/-- Claim C6 counterexample: in `src/api.py`, an empty pipeline result is
not surfaced as a valid empty result: `recommend_assessments` raises
`HTTPException(404)`, which its own blanket `except Exception` handler
converts into a 500 — a 5xx-class failure. -/
theorem C6_counterexample :
    recommend_assessments [] ≠ ApiOutcome.ok []
      ∧ ∃ msg, recommend_assessments [] = ApiOutcome.httpError 500 msg := by
  exact ⟨by decide, ⟨"404: No assessments found matching the criteria", rfl⟩⟩

/-- Claim C6 (amended): `get_recommendations` of `src/main.py` surfaces an
empty pipeline result as a valid empty sequence (a normal payload, not an
error); `recommend_assessments` of `src/api.py` instead fails with status
500 (its deliberate 404 is swallowed by its blanket exception handler). -/
theorem C6_amended (numResults : Nat) :
    get_recommendations numResults [] = ApiOutcome.ok []
      ∧ ∃ msg, recommend_assessments [] = ApiOutcome.httpError 500 msg :=
  ⟨rfl, ⟨"404: No assessments found matching the criteria", rfl⟩⟩

/-- Claim C8: when the query yields an empty constraint set (no duration
ceiling, no remote requirement, no adaptive requirement), the filter
returns its input unchanged: same elements, same order, same length. -/
theorem C8_no_constraints_identity (recs : List Assessment) (query : String)
    (h1 : extractMaxDuration query = none)
    (h2 : extractHasRemote query = false)
    (h3 : extractHasAdaptive query = false) :
    filter_recommendations recs query = recs := by
  unfold filter_recommendations
  rw [h1, h2, h3]
  unfold filterCore
  have hid : recs.filter (keepRec none false false) = recs := by
    apply List.filter_eq_self.mpr
    intro a _
    simp [keepRec, dropByDuration]
  rw [hid]
  cases recs <;> simp

/-- Witness for C8: a constraint-free query leaves a concrete candidate
list untouched. -/
theorem C8_no_constraints_identity_witness :
    filter_recommendations [recA, recB] "java developer" = [recA, recB] :=
  C8_no_constraints_identity [recA, recB] "java developer" (by decide) (by decide) (by decide)

/-- Claim C9: for a query containing no URL, the pipeline's output does not
depend on the network fetch oracle at all, so two runs against the same
catalog and embedding model (both read-only) give identical ordered
output; every other stage is a pure function of the query. -/
theorem C9_no_url_fetch_independence (scoreOf : String → List Int)
    (catalog : List Assessment) (fetch1 fetch2 : String → String) (query : String)
    (h : extract_url_from_text query = none) :
    query_handling scoreOf catalog fetch1 query
      = query_handling scoreOf catalog fetch2 query := by
  unfold query_handling
  rw [h]

/-- Witness for C9: a concrete URL-free query under two different fetch
oracles. -/
theorem C9_no_url_fetch_independence_witness :
    query_handling (fun _ => [5, 3]) [recA, recB] (fun _ => "a") "plain query"
      = query_handling (fun _ => [5, 3]) [recA, recB] (fun _ => "b") "plain query" :=
  C9_no_url_fetch_independence (fun _ => [5, 3]) [recA, recB] (fun _ => "a")
    (fun _ => "b") "plain query" (by decide)

end SHL
